import Mathlib

/-!
Shallow embedding of the GitHub data-access layer of the project-board
repository (the module that defines `getCached`, `setCache`, `githubFetch`,
`githubGraphQL`, `buildRepoFilter`, `filterByUser`, `transformGitHubItem`,
`fetchIssues`, `fetchPullRequests`, `fetchDiscussions`, `getOrgRepositories`,
`fetchAllItems`, `fetchOrganization`, `fetchReadme`).

Modelling conventions:
- Machine numbers (`Date.now()` epoch millis, item ids) are `Int`/`Nat`.
- A rejected promise / thrown `Error` is `Except.error` carrying the message.
- The per-call results of the transport layer, the host's `atob`, and
  `new Date(s).getTime()` are abstracted into a `Net` environment record,
  universally quantified in the theorems.
- JavaScript truthiness on cached JSON values is modelled by `JsValue.truthy`
  (`undefined` and `null` are both collapsed into `JsValue.nul`; both are
  falsy, and no modelled code path distinguishes them).
- `Array.prototype.sort` with a consistent comparator is required by the
  ECMAScript specification to be a stable sort; every stable sort agrees on
  such input, so it is modelled by `List.mergeSort`.
-/

/-- The 5-minute cache TTL, `CACHE_TTL = 5 * 60 * 1000` milliseconds. -/
def CACHE_TTL : Int := 5 * 60 * 1000

/-- CacheEntry from the source: stored data plus the `Date.now()` timestamp. -/
structure CacheEntry (α : Type) where
  data : α
  timestamp : Int
deriving DecidableEq, Repr

/-- The in-memory `Map` backing the cache, modelled as a lookup function. -/
def Cache (α : Type) : Type := String → Option (CacheEntry α)

/-- The empty cache (a fresh `Map`). -/
def emptyCache (α : Type) : Cache α := fun _ => none

/-- Model of `getCached`: look the key up; a missing entry is a miss; an entry
older than `CACHE_TTL` is deleted and reported as a miss; otherwise the stored
data is returned.  The returned cache reflects the possible deletion. -/
def getCached (cache : Cache α) (now : Int) (key : String) :
    Option α × Cache α :=
  match cache key with
  | none => (none, cache)
  | some entry =>
    if now - entry.timestamp > CACHE_TTL then
      (none, fun k => if k == key then none else cache k)
    else
      (some entry.data, cache)

/-- Model of `setCache`: store the data with the current timestamp. -/
def setCache (cache : Cache α) (now : Int) (key : String) (data : α) :
    Cache α :=
  fun k => if k == key then some { data := data, timestamp := now } else cache k

/-- JSON values, as produced by `response.json()` / `JSON.parse`.
JavaScript `undefined` is collapsed into `nul` (both are falsy and the
modelled code never distinguishes them). -/
inductive JsValue where
  | nul : JsValue
  | bool : Bool → JsValue
  | num : Int → JsValue
  | str : String → JsValue
  | arr : List JsValue → JsValue
  | obj : List (String × JsValue) → JsValue

/-- JavaScript truthiness of a JSON value (`NaN` does not arise: numbers are
modelled as integers). -/
def JsValue.truthy : JsValue → Bool
  | .nul => false
  | .bool b => b
  | .num n => n != 0
  | .str s => s != ""
  | .arr _ => true
  | .obj _ => true

/-- Property access `v.key` on a parsed JSON value; anything other than an
object with the key present yields `undefined`, collapsed into `nul`. -/
def JsValue.getProp (v : JsValue) (key : String) : JsValue :=
  match v with
  | .obj fields =>
    match fields.lookup key with
    | some w => w
    | none => .nul
  | _ => .nul

/-- Truthiness of the `T | null` value returned by `getCached`, as tested by
`if (cached)` in the transports. -/
def jsOptTruthy : Option JsValue → Bool
  | none => false
  | some v => v.truthy

/-- An HTTP response as seen through the `fetch` API: status, status text and
the raw body (which `response.json()` would parse). -/
structure HttpResponse where
  status : Nat
  statusText : String
  body : String
deriving DecidableEq, Repr

/-- The `Response.ok` flag of the `fetch` API: status in the range 200-299. -/
def HttpResponse.ok (r : HttpResponse) : Bool :=
  200 ≤ r.status && r.status ≤ 299

/-- Model of `githubFetch`: check the cache under key `"rest:" + endpoint`; a
truthy cached value is returned without touching the network; otherwise the
response (supplied by the environment) is checked: non-2xx throws an `Error`
whose message interpolates only the status text, 2xx parses the body, caches
it and returns it.  `parseJson` models the host's JSON parser. -/
def githubFetch (parseJson : String → JsValue) (resp : HttpResponse)
    (now : Int) (cache : Cache JsValue) (endpoint : String) :
    Except String JsValue × Cache JsValue :=
  let cacheKey := "rest:" ++ endpoint
  let looked := getCached cache now cacheKey
  let network := fun (c : Cache JsValue) =>
    if !resp.ok then
      (Except.error ("GitHub API request failed: " ++ resp.statusText), c)
    else
      let data := parseJson resp.body
      (Except.ok data, setCache c now cacheKey data)
  match looked.1 with
  | some cached => if cached.truthy then (Except.ok cached, looked.2) else network looked.2
  | none => network looked.2

/-- Model of `githubGraphQL`: cache key `"graphql:" + query + ":" +
JSON.stringify(variables || {})` (the serialized variables are supplied
already stringified); same truthy-hit short-circuit; non-2xx throws with the
status text; a 2xx body whose `errors` field is truthy throws a GraphQL
error (`stringify` models the host's `JSON.stringify`); otherwise the body's
`data` field is cached and returned. -/
def githubGraphQL (parseJson : String → JsValue) (stringify : JsValue → String)
    (resp : HttpResponse) (now : Int) (cache : Cache JsValue)
    (query : String) (variablesJson : Option String) :
    Except String JsValue × Cache JsValue :=
  let cacheKey := "graphql:" ++ query ++ ":" ++ variablesJson.getD "\x7b\x7d"
  let looked := getCached cache now cacheKey
  let network := fun (c : Cache JsValue) =>
    if !resp.ok then
      (Except.error ("GitHub GraphQL request failed: " ++ resp.statusText), c)
    else
      let result := parseJson resp.body
      if (result.getProp "errors").truthy then
        (Except.error ("GraphQL errors: " ++ stringify (result.getProp "errors")), c)
      else
        let data := result.getProp "data"
        (Except.ok data, setCache c now cacheKey data)
  match looked.1 with
  | some cached => if cached.truthy then (Except.ok cached, looked.2) else network looked.2
  | none => network looked.2

/-- Item kind tag, the `type` field of the unified item shape. -/
inductive ItemType where
  | issue
  | pr
  | discussion
deriving DecidableEq, Repr

/-- The `user` component of a unified item. -/
structure ItemUser where
  login : String
  avatar_url : String
deriving DecidableEq, Repr

/-- One label of a unified item. -/
structure ItemLabel where
  name : String
  color : String
deriving DecidableEq, Repr

/-- GitHubItem, the unified representation of an issue, PR or discussion. -/
structure GitHubItem where
  id : Int
  number : Int
  title : String
  state : String
  created_at : String
  updated_at : String
  html_url : String
  user : ItemUser
  labels : List ItemLabel
  repository : String
  type : ItemType
deriving DecidableEq, Repr

/-- FilterOptions accepted by `fetchAllItems`. -/
inductive TypeFilter where
  | all
  | issue
  | pr
  | discussion
deriving DecidableEq, Repr

/-- Options record of `fetchAllItems`; absent fields are `none`. -/
structure FilterOptions where
  state : Option String := none
  type : Option TypeFilter := none
  repository : Option String := none
deriving DecidableEq, Repr

/-- GitHubOrganization, the payload of `/orgs/{org}`. -/
structure GitHubOrganization where
  login : String
  id : Int
  avatar_url : String
  description : String
  name : String
  blog : String
  location : String
  email : String
  public_repos : Int
  public_gists : Int
  followers : Int
  following : Int
  html_url : String
  created_at : String
  updated_at : String
deriving DecidableEq, Repr

/-- The fields of the static configuration object that the data-access module
reads (the remaining fields of the real config are never consulted by the
modelled code). -/
structure ProjectConfig where
  githubToken : Option String := none
  allowedRepositories : List String := []
  maxItemsPerPage : Nat := 100
  enableDiscussions : Bool := true
  excludedUsers : Option (List String) := none

/-- Model of `buildRepoFilter`: empty list gives the org-wide scope token;
otherwise one `repo:` token per name, double-quoting `org/name` whenever the
name matches the regex `[.\-]` (contains a dot or hyphen), joined by spaces. -/
def buildRepoFilter (org : String) (allowedRepos : List String) : String :=
  if allowedRepos.length == 0 then
    "org:" ++ org
  else
    String.intercalate " " (allowedRepos.map (fun repo =>
      let needsQuotes := repo.toList.any (fun c => c == '.' || c == '-')
      if needsQuotes then
        "repo:\"" ++ org ++ "/" ++ repo ++ "\""
      else
        "repo:" ++ org ++ "/" ++ repo))

/-- JavaScript `String.prototype.toLowerCase`, character by character. -/
def jsToLowerCase (s : String) : String :=
  String.mk (s.toList.map Char.toLower)

/-- Model of `filterByUser`: with no configured exclusions the list passes
through; otherwise items whose lowercased `user.login` equals some lowercased
excluded name are dropped. -/
def filterByUser (cfg : ProjectConfig) (items : List GitHubItem) :
    List GitHubItem :=
  match cfg.excludedUsers with
  | none => items
  | some excluded =>
    if excluded.length == 0 then
      items
    else
      items.filter (fun item =>
        let username := jsToLowerCase item.user.login
        !(excluded.any (fun ex => jsToLowerCase ex == username)))

/-- JavaScript `s1 || s2` on strings: the empty string is falsy. -/
def jsOr (s dflt : String) : String :=
  if s == "" then dflt else s

/-- Truthiness of an optional string (`undefined` and `""` are falsy). -/
def jsStrOptTruthy : Option String → Bool
  | none => false
  | some s => s != ""

/-- A raw user object on a REST issue/pull payload. -/
structure RawUser where
  login : String
  avatar_url : String
deriving DecidableEq, Repr

/-- A raw label on a REST payload: either a bare string or an object. -/
inductive RawLabel where
  | str : String → RawLabel
  | obj : String → String → RawLabel
deriving DecidableEq, Repr

/-- A nested raw repository object (`item.repository`). -/
structure RawRepo where
  name : String
deriving DecidableEq, Repr

/-- A raw REST issue/pull payload, restricted to the fields the module reads.
`pull_request` records whether the payload carries the PR marker object. -/
structure RawItem where
  id : Int
  number : Int
  title : String
  state : String
  created_at : String
  updated_at : String
  html_url : String
  user : Option RawUser
  labels : Option (List RawLabel)
  repository_url : Option String
  repository : Option RawRepo
  pull_request : Bool
deriving DecidableEq, Repr

/-- Model of `transformGitHubItem`: repository name comes from the last path
segment of a truthy `repository_url`, else from a nested repository object,
else is empty; author defaults to `unknown`; labels normalize both the
bare-string and the object form. -/
def transformGitHubItem (item : RawItem) (type : ItemType) : GitHubItem :=
  let repoName :=
    if jsStrOptTruthy item.repository_url then
      ((item.repository_url.getD "").splitOn "/").getLastD ""
    else
      match item.repository with
      | some r => r.name
      | none => ""
  { id := item.id
    number := item.number
    title := item.title
    state := item.state
    created_at := item.created_at
    updated_at := item.updated_at
    html_url := item.html_url
    user :=
      { login := jsOr ((item.user.map (fun u => u.login)).getD "") "unknown"
        avatar_url := (item.user.map (fun u => u.avatar_url)).getD "" }
    labels := (item.labels.getD []).map (fun label =>
      match label with
      | .str s => { name := s, color := "000000" }
      | .obj n c => { name := n, color := c })
    repository := repoName
    type := type }

/-- The author object of a GraphQL discussion node. -/
structure DiscussionAuthor where
  login : String
  avatarUrl : String
deriving DecidableEq, Repr

/-- One label node of a GraphQL discussion node. -/
structure DiscussionLabel where
  name : String
  color : String
deriving DecidableEq, Repr

/-- A GraphQL discussion node, restricted to the requested fields;
`labels` holds the flattened `labels.nodes` list. -/
structure DiscussionNode where
  id : String
  number : Int
  title : String
  url : String
  createdAt : String
  updatedAt : String
  author : Option DiscussionAuthor
  labels : List DiscussionLabel
  closed : Bool
  closedAt : Option String
deriving DecidableEq, Repr

/-- The digit-stripping step of the discussion id synthesis:
`disc.id.replace(/\D/g, '')`. -/
def extractDigits (s : String) : String :=
  String.mk (s.toList.filter Char.isDigit)

/-- Decimal value of a digit list, the result of `parseInt` on a non-empty
digits-only string. -/
def decimalValue (cs : List Char) : Nat :=
  cs.foldl (fun n c => n * 10 + (c.toNat - Char.toNat '0')) 0

/-- Model of `parseInt(s) || 0` on a digits-only string: the empty string
parses to `NaN`, which the `|| 0` collapses to `0`; otherwise the decimal
value (`parseInt(s)` of a non-empty digit string is never `NaN`, and a zero
value passes through `|| 0` unchanged). -/
def parseIntOrZero (s : String) : Int :=
  if s == "" then 0 else (decimalValue s.toList : Int)

/-- The inline mapping of one GraphQL discussion node to a GitHubItem inside
`fetchDiscussions` (id synthesized by digit extraction, state derived from
`closed`, author defaulting to `unknown`). -/
def discussionToItem (repo : String) (disc : DiscussionNode) : GitHubItem :=
  { id := parseIntOrZero (extractDigits disc.id)
    number := disc.number
    title := disc.title
    state := if disc.closed then "closed" else "open"
    created_at := disc.createdAt
    updated_at := disc.updatedAt
    html_url := disc.url
    user :=
      { login := jsOr ((disc.author.map (fun a => a.login)).getD "") "unknown"
        avatar_url := (disc.author.map (fun a => a.avatarUrl)).getD "" }
    labels := disc.labels.map (fun label =>
      { name := label.name, color := label.color })
    repository := repo
    type := ItemType.discussion }

/-- The readme payload of `/repos/{org}/{repo}/readme`. -/
structure ReadmeResponse where
  content : String
  encoding : String
deriving DecidableEq, Repr

/-- JavaScript `content.replace(/\n/g, '')`. -/
def removeNewlines (s : String) : String :=
  String.mk (s.toList.filter (fun c => c != '\n'))

/-- The environment a fetcher call runs against: for each upstream request
shape, the value that awaiting the corresponding transport call produces
(`Except.error` models a rejected promise), plus the host's `atob` (which can
throw on malformed base64) and `new Date(s).getTime()`. -/
structure Net where
  repoIssues : String → String → String → Except String (List RawItem)
  repoPulls : String → String → String → Except String (List RawItem)
  searchIssues : String → Nat → Except String (Option (List RawItem))
  searchRepositories : String → Except String (Option (List RawRepo))
  discussions : String → String → Except String (Option (List DiscussionNode))
  orgInfo : String → Except String GitHubOrganization
  readme : String → String → Except String ReadmeResponse
  atob : String → Except String String
  dateTime : String → Int

/-- A `try { body } catch (e) { handler }` block around an async body. -/
def tryCatchE (body : Except ε α) (handle : ε → Except ε α) : Except ε α :=
  match body with
  | .error e => handle e
  | .ok a => .ok a

/-- Model of `fetchIssues`: with a non-empty allow-list, loop over the repos,
catching per-repository errors (a failed repo contributes nothing), filter out
payloads carrying the `pull_request` marker, transform, tag with the repo and
user-filter.  With an empty allow-list, run one org-wide search (missing
`items` gives `[]` with no user filter); the outer catch degrades any error
to `[]`. -/
def fetchIssues (net : Net) (cfg : ProjectConfig) (org : String)
    (state : String := "open") (allowedRepos : List String := []) :
    Except String (List GitHubItem) :=
  tryCatchE
    (if allowedRepos.length > 0 then
      let allIssues := allowedRepos.foldl (fun acc repo =>
        match net.repoIssues org repo (if state == "all" then "all" else state) with
        | .error _ => acc
        | .ok issues =>
          let actualIssues := issues.filter (fun issue => !issue.pull_request)
          acc ++ actualIssues.map (fun item =>
            { transformGitHubItem item ItemType.issue with repository := repo })) []
      pure (filterByUser cfg allIssues)
    else
      let repoFilter := buildRepoFilter org allowedRepos
      let stateQuery := if state == "all" then "" else "is:" ++ state
      let query := (repoFilter ++ " is:issue " ++ stateQuery).trim
      (net.searchIssues query cfg.maxItemsPerPage).bind (fun result =>
        match result with
        | none => pure []
        | some items =>
          pure (filterByUser cfg (items.map (fun item =>
            transformGitHubItem item ItemType.issue)))))
    (fun _ => pure [])

/-- Model of `fetchPullRequests`: same dual strategy as `fetchIssues`, minus
the `pull_request`-marker filter, with `is:pr` in the search query. -/
def fetchPullRequests (net : Net) (cfg : ProjectConfig) (org : String)
    (state : String := "open") (allowedRepos : List String := []) :
    Except String (List GitHubItem) :=
  tryCatchE
    (if allowedRepos.length > 0 then
      let allPRs := allowedRepos.foldl (fun acc repo =>
        match net.repoPulls org repo (if state == "all" then "all" else state) with
        | .error _ => acc
        | .ok prs =>
          acc ++ prs.map (fun item =>
            { transformGitHubItem item ItemType.pr with repository := repo })) []
      pure (filterByUser cfg allPRs)
    else
      let repoFilter := buildRepoFilter org allowedRepos
      let stateQuery := if state == "all" then "" else "is:" ++ state
      let query := (repoFilter ++ " is:pr " ++ stateQuery).trim
      (net.searchIssues query cfg.maxItemsPerPage).bind (fun result =>
        match result with
        | none => pure []
        | some items =>
          pure (filterByUser cfg (items.map (fun item =>
            transformGitHubItem item ItemType.pr)))))
    (fun _ => pure [])

/-- Model of `getOrgRepositories`: search repositories org-wide, extract the
names, drop falsy ones, intersect with the configured allow-list when one is
configured; any error degrades to `[]`. -/
def getOrgRepositories (net : Net) (cfg : ProjectConfig) (org : String) :
    Except String (List String) :=
  tryCatchE
    ((net.searchRepositories ("org:" ++ org)).bind (fun result =>
      match result with
      | none => pure []
      | some items =>
        let allRepos := (items.map (fun repo => repo.name)).filter (fun n => n != "")
        if cfg.allowedRepositories.length > 0 then
          pure (allRepos.filter (fun repo => cfg.allowedRepositories.contains repo))
        else
          pure allRepos))
    (fun _ => pure [])

/-- Model of `fetchDiscussions`: resolve the repo list (the allow-list when
non-empty, else `getOrgRepositories`), short-circuit on an empty list, then
loop per repository with a per-iteration catch, mapping each returned GraphQL
node through `discussionToItem`; user-filter at the end; the outer catch
degrades any error to `[]`. -/
def fetchDiscussions (net : Net) (cfg : ProjectConfig) (org : String)
    (allowedRepos : List String := []) : Except String (List GitHubItem) :=
  tryCatchE
    ((if allowedRepos.length > 0 then
        pure allowedRepos
      else
        getOrgRepositories net cfg org).bind (fun reposToFetch =>
      if reposToFetch.length == 0 then
        pure []
      else
        let allDiscussions := reposToFetch.foldl (fun acc repo =>
          match net.discussions org repo with
          | .error _ => acc
          | .ok none => acc
          | .ok (some nodes) =>
            acc ++ nodes.map (fun disc => discussionToItem repo disc)) []
        pure (filterByUser cfg allDiscussions)))
    (fun _ => pure [])

/-- The JS sort comparator of `fetchAllItems`,
`(a, b) => new Date(b.updated_at).getTime() - new Date(a.updated_at).getTime()`,
as the boolean order `a` precedes-or-ties `b`. -/
def itemLE (net : Net) : GitHubItem → GitHubItem → Bool :=
  fun a b => decide (net.dateTime b.updated_at ≤ net.dateTime a.updated_at)

/-- Model of `fetchAllItems`: defaults, conditional per-type fetches
(discussions additionally gated on `enableDiscussions`), concatenation,
post-fetch repository filter (skipped for a falsy or `"all"` repository), and
the final stable recency sort. -/
def fetchAllItems (net : Net) (cfg : ProjectConfig) (org : String)
    (options : FilterOptions := {}) : Except String (List GitHubItem) := do
  let state := options.state.getD "open"
  let type := options.type.getD TypeFilter.all
  let repository := options.repository
  let allowedRepos := cfg.allowedRepositories
  let issues ←
    if type == TypeFilter.all || type == TypeFilter.issue then
      fetchIssues net cfg org state allowedRepos
    else
      pure []
  let prs ←
    if type == TypeFilter.all || type == TypeFilter.pr then
      fetchPullRequests net cfg org state allowedRepos
    else
      pure []
  let discussions ←
    if (type == TypeFilter.all || type == TypeFilter.discussion) && cfg.enableDiscussions then
      fetchDiscussions net cfg org allowedRepos
    else
      pure []
  let items : List GitHubItem := issues ++ prs ++ discussions
  let filteredItems :=
    match repository with
    | some r => if r != "" && r != "all" then items.filter (fun (item : GitHubItem) => item.repository == r) else items
    | none => items
  pure (filteredItems.mergeSort (itemLE net))

/-- Model of `fetchOrganization`: a REST lookup degraded to `null` on error. -/
def fetchOrganization (net : Net) (org : String) :
    Except String (Option GitHubOrganization) :=
  tryCatchE
    ((net.orgInfo org).bind (fun o => pure (some o)))
    (fun _ => pure none)

/-- Model of `fetchReadme`: fetch the readme payload; base64 content is
decoded by the host `atob` after stripping newlines; any error (including a
throwing `atob`) degrades to `null`. -/
def fetchReadme (net : Net) (org : String) (repo : String) :
    Except String (Option String) :=
  tryCatchE
    ((net.readme org repo).bind (fun response =>
      if response.encoding == "base64" then
        (net.atob (removeNewlines response.content)).bind (fun decoded =>
          pure (some decoded))
      else
        pure (some response.content)))
    (fun _ => pure none)

/-- Contribution of one repository to the per-repository issue loop: empty
when that repository's fetch rejects, otherwise its filtered, transformed,
repo-tagged items. -/
def issueRepoContribution (net : Net) (org state repo : String) :
    List GitHubItem :=
  match net.repoIssues org repo (if state == "all" then "all" else state) with
  | .error _ => []
  | .ok issues =>
    (issues.filter (fun issue => !issue.pull_request)).map (fun item =>
      { transformGitHubItem item ItemType.issue with repository := repo })

/-- Contribution of one repository to the per-repository pull-request loop. -/
def pullRepoContribution (net : Net) (org state repo : String) :
    List GitHubItem :=
  match net.repoPulls org repo (if state == "all" then "all" else state) with
  | .error _ => []
  | .ok prs =>
    prs.map (fun item =>
      { transformGitHubItem item ItemType.pr with repository := repo })

/-- Contribution of one repository to the per-repository discussion loop. -/
def discussionRepoContribution (net : Net) (org repo : String) :
    List GitHubItem :=
  match net.discussions org repo with
  | .error _ => []
  | .ok none => []
  | .ok (some nodes) => nodes.map (fun disc => discussionToItem repo disc)

/-- Closed form of the value `fetchIssues` resolves with. -/
def issuesResult (net : Net) (cfg : ProjectConfig) (org state : String)
    (allowedRepos : List String) : List GitHubItem :=
  if allowedRepos.length > 0 then
    filterByUser cfg (allowedRepos.flatMap (issueRepoContribution net org state))
  else
    match net.searchIssues
        ((buildRepoFilter org allowedRepos ++ " is:issue " ++
          (if state == "all" then "" else "is:" ++ state)).trim)
        cfg.maxItemsPerPage with
    | .error _ => []
    | .ok none => []
    | .ok (some items) =>
      filterByUser cfg (items.map (fun item =>
        transformGitHubItem item ItemType.issue))

/-- Closed form of the value `fetchPullRequests` resolves with. -/
def pullsResult (net : Net) (cfg : ProjectConfig) (org state : String)
    (allowedRepos : List String) : List GitHubItem :=
  if allowedRepos.length > 0 then
    filterByUser cfg (allowedRepos.flatMap (pullRepoContribution net org state))
  else
    match net.searchIssues
        ((buildRepoFilter org allowedRepos ++ " is:pr " ++
          (if state == "all" then "" else "is:" ++ state)).trim)
        cfg.maxItemsPerPage with
    | .error _ => []
    | .ok none => []
    | .ok (some items) =>
      filterByUser cfg (items.map (fun item =>
        transformGitHubItem item ItemType.pr))

/-- Closed form of the value `getOrgRepositories` resolves with. -/
def orgReposResult (net : Net) (cfg : ProjectConfig) (org : String) :
    List String :=
  match net.searchRepositories ("org:" ++ org) with
  | .error _ => []
  | .ok none => []
  | .ok (some items) =>
    let allRepos := (items.map (fun repo => repo.name)).filter (fun n => n != "")
    if cfg.allowedRepositories.length > 0 then
      allRepos.filter (fun repo => cfg.allowedRepositories.contains repo)
    else
      allRepos

/-- Closed form of the value `fetchDiscussions` resolves with. -/
def discussionsResult (net : Net) (cfg : ProjectConfig) (org : String)
    (allowedRepos : List String) : List GitHubItem :=
  let reposToFetch :=
    if allowedRepos.length > 0 then allowedRepos else orgReposResult net cfg org
  if reposToFetch.length == 0 then
    []
  else
    filterByUser cfg (reposToFetch.flatMap (discussionRepoContribution net org))

/-- The concatenated, repository-filtered item sequence `fetchAllItems` builds
just before its final sort (the `filteredItems` local of the source). -/
def preSortItems (net : Net) (cfg : ProjectConfig) (org : String)
    (options : FilterOptions) : List GitHubItem :=
  let state := options.state.getD "open"
  let type := options.type.getD TypeFilter.all
  let allowedRepos := cfg.allowedRepositories
  let issues :=
    if type == TypeFilter.all || type == TypeFilter.issue then
      issuesResult net cfg org state allowedRepos
    else
      []
  let prs :=
    if type == TypeFilter.all || type == TypeFilter.pr then
      pullsResult net cfg org state allowedRepos
    else
      []
  let discussions :=
    if (type == TypeFilter.all || type == TypeFilter.discussion) && cfg.enableDiscussions then
      discussionsResult net cfg org allowedRepos
    else
      []
  let items : List GitHubItem := issues ++ prs ++ discussions
  match options.repository with
  | some r =>
    if r != "" && r != "all" then
      items.filter (fun (item : GitHubItem) => item.repository == r)
    else
      items
  | none => items

/-- Closed form of the value `fetchAllItems` resolves with: the pre-sort
sequence, stably sorted by descending parsed `updated_at`. -/
def allItemsResult (net : Net) (cfg : ProjectConfig) (org : String)
    (options : FilterOptions) : List GitHubItem :=
  (preSortItems net cfg org options).mergeSort (itemLE net)

/-- The user-exclusion predicate as the spec words it: the item's `user.login`
matches some configured excluded username case-insensitively. -/
def matchesExcludedUser (cfg : ProjectConfig) (item : GitHubItem) : Bool :=
  match cfg.excludedUsers with
  | none => false
  | some excluded =>
    excluded.any (fun ex => jsToLowerCase ex == jsToLowerCase item.user.login)

/-- Sample discussion node whose GraphQL identifier contains the digit 7. -/
def discNodeA : DiscussionNode :=
  { id := "abc7", number := 1, title := "d1", url := "u1"
    createdAt := "2024-01-01", updatedAt := "2024-01-02"
    author := some { login := "alice", avatarUrl := "av" }
    labels := [], closed := false, closedAt := none }

/-- Sample discussion node with a different identifier but the same digits. -/
def discNodeB : DiscussionNode :=
  { id := "xyz7", number := 2, title := "d2", url := "u2"
    createdAt := "2024-01-01", updatedAt := "2024-01-03"
    author := some { login := "bob", avatarUrl := "av" }
    labels := [], closed := true, closedAt := some "2024-01-04" }

/-- Sample raw REST issue payload. -/
def rawIssueA : RawItem :=
  { id := 11, number := 5, title := "i1", state := "open"
    created_at := "2024-01-01", updated_at := "2024-01-01", html_url := "hu"
    user := some { login := "alice", avatar_url := "av" }
    labels := some [], repository_url := none, repository := none
    pull_request := false }

/-- Sample environment: the repository named `bad` rejects everywhere, the
singular lookups reject, and everything else succeeds with fixed data. -/
def netSample : Net :=
  { repoIssues := fun _ repo _ =>
      if repo == "bad" then Except.error "boom" else Except.ok [rawIssueA]
    repoPulls := fun _ repo _ =>
      if repo == "bad" then Except.error "boom" else Except.ok []
    searchIssues := fun _ _ => Except.ok (some [rawIssueA])
    searchRepositories := fun _ => Except.ok (some [])
    discussions := fun _ repo =>
      if repo == "bad" then Except.error "boom"
      else Except.ok (some [discNodeA, discNodeB])
    orgInfo := fun _ => Except.error "boom"
    readme := fun _ _ => Except.error "boom"
    atob := fun s => Except.ok s
    dateTime := fun s => if s == "2024-01-01" then 1 else 2 }

/-- Sample configuration with all defaults (no exclusions, discussions on). -/
def cfgPlain : ProjectConfig := {}

/-- Sample JSON parser used with the transport models in witnesses. -/
def parseConst : String → JsValue := fun _ => JsValue.num 1

/-- Sample JSON serializer used with the transport models in witnesses. -/
def stringifyConst : JsValue → String := fun _ => "e"


/-- Sample environment whose search endpoints reject. -/
def netErr : Net :=
  { netSample with
    searchIssues := fun _ _ => Except.error "down"
    searchRepositories := fun _ => Except.error "down" }


/-- Sample configuration that excludes the username `bot`. -/
def cfgExcl : ProjectConfig := { excludedUsers := some ["bot"] }

/-- Sample item authored by `Bot` (matches the exclusion case-insensitively). -/
def itemBot : GitHubItem :=
  { id := 1, number := 1, title := "t1", state := "open"
    created_at := "c", updated_at := "u", html_url := "h"
    user := { login := "Bot", avatar_url := "" }
    labels := [], repository := "", type := ItemType.issue }

/-- Sample item authored by `alice` (kept by the exclusion filter). -/
def itemAlice : GitHubItem :=
  { id := 2, number := 2, title := "t2", state := "open"
    created_at := "c", updated_at := "u", html_url := "h"
    user := { login := "alice", avatar_url := "" }
    labels := [], repository := "", type := ItemType.issue }

/-- A left fold whose step appends a per-element contribution computes the
initial value followed by the flat-mapped contributions. -/
theorem foldl_append_eq_flatMap {β γ : Type} (g : List γ → β → List γ)
    (f : β → List γ) (hg : ∀ acc b, g acc b = acc ++ f b) :
    ∀ (l : List β) (init : List γ), l.foldl g init = init ++ l.flatMap f := by
  intro l
  induction l with
  | nil => intro init; simp
  | cons b t ih =>
    intro init
    rw [List.foldl_cons, hg, ih, List.flatMap_cons, List.append_assoc]

/-- One step of the per-repository issue loop appends that repository's
contribution. -/
theorem issueLoop_step (net : Net) (org state : String)
    (acc : List GitHubItem) (repo : String) :
    (match net.repoIssues org repo (if state == "all" then "all" else state) with
     | .error _ => acc
     | .ok issues =>
       acc ++ (issues.filter (fun issue => !issue.pull_request)).map (fun item =>
         { transformGitHubItem item ItemType.issue with repository := repo })) =
    acc ++ issueRepoContribution net org state repo := by
  unfold issueRepoContribution
  cases net.repoIssues org repo (if state == "all" then "all" else state) <;> simp

/-- One step of the per-repository pull-request loop appends that repository's
contribution. -/
theorem pullLoop_step (net : Net) (org state : String)
    (acc : List GitHubItem) (repo : String) :
    (match net.repoPulls org repo (if state == "all" then "all" else state) with
     | .error _ => acc
     | .ok prs =>
       acc ++ prs.map (fun item =>
         { transformGitHubItem item ItemType.pr with repository := repo })) =
    acc ++ pullRepoContribution net org state repo := by
  unfold pullRepoContribution
  cases net.repoPulls org repo (if state == "all" then "all" else state) <;> simp

/-- One step of the per-repository discussion loop appends that repository's
contribution. -/
theorem discussionLoop_step (net : Net) (org : String)
    (acc : List GitHubItem) (repo : String) :
    (match net.discussions org repo with
     | .error _ => acc
     | .ok none => acc
     | .ok (some nodes) =>
       acc ++ nodes.map (fun disc => discussionToItem repo disc)) =
    acc ++ discussionRepoContribution net org repo := by
  unfold discussionRepoContribution
  cases h : net.discussions org repo with
  | error e => simp
  | ok r => cases r <;> simp

/-- Evaluating the search-path combinator of the issue/PR fetchers. -/
theorem tryCatch_search_bind (x : Except String (Option (List RawItem)))
    (f : List RawItem → List GitHubItem) :
    tryCatchE (x.bind (fun result => match result with
      | none => pure []
      | some items => pure (f items))) (fun _ => pure []) =
    Except.ok (match x with
      | .error _ => []
      | .ok none => []
      | .ok (some items) => f items) := by
  cases x with
  | error e => rfl
  | ok r => cases r <;> rfl

/-- Rewriting `fetchIssues` to its closed form (in particular it always
resolves). -/
theorem fetchIssues_eq (net : Net) (cfg : ProjectConfig) (org state : String)
    (repos : List String) :
    fetchIssues net cfg org state repos =
      Except.ok (issuesResult net cfg org state repos) := by
  unfold fetchIssues issuesResult
  by_cases h : repos.length > 0
  · rw [if_pos h, if_pos h,
      foldl_append_eq_flatMap _ (issueRepoContribution net org state)
        (fun acc b => issueLoop_step net org state acc b)]
    rfl
  · rw [if_neg h, if_neg h]
    exact tryCatch_search_bind _ _

/-- Rewriting `fetchPullRequests` to its closed form (in particular it always
resolves). -/
theorem fetchPullRequests_eq (net : Net) (cfg : ProjectConfig)
    (org state : String) (repos : List String) :
    fetchPullRequests net cfg org state repos =
      Except.ok (pullsResult net cfg org state repos) := by
  unfold fetchPullRequests pullsResult
  by_cases h : repos.length > 0
  · rw [if_pos h, if_pos h,
      foldl_append_eq_flatMap _ (pullRepoContribution net org state)
        (fun acc b => pullLoop_step net org state acc b)]
    rfl
  · rw [if_neg h, if_neg h]
    exact tryCatch_search_bind _ _

/-- Rewriting `getOrgRepositories` to its closed form (in particular it
always resolves). -/
theorem getOrgRepositories_eq (net : Net) (cfg : ProjectConfig) (org : String) :
    getOrgRepositories net cfg org = Except.ok (orgReposResult net cfg org) := by
  unfold getOrgRepositories orgReposResult
  cases h : net.searchRepositories ("org:" ++ org) with
  | error e => rfl
  | ok r =>
    cases r with
    | none => rfl
    | some items =>
      by_cases hc : cfg.allowedRepositories.length > 0 <;>
        simp [tryCatchE, hc, Except.bind, pure, Except.pure]

/-- Rewriting `fetchDiscussions` to its closed form (in particular it always
resolves). -/
theorem fetchDiscussions_eq (net : Net) (cfg : ProjectConfig) (org : String)
    (repos : List String) :
    fetchDiscussions net cfg org repos =
      Except.ok (discussionsResult net cfg org repos) := by
  unfold fetchDiscussions discussionsResult
  by_cases h : repos.length > 0
  · rw [if_pos h, if_pos h]
    by_cases h0 : (repos.length == 0) = true <;>
      simp [tryCatchE, h0, Except.bind, pure, Except.pure,
        foldl_append_eq_flatMap _ (discussionRepoContribution net org)
          (fun acc b => discussionLoop_step net org acc b)]
  · rw [if_neg h, if_neg h, getOrgRepositories_eq]
    by_cases h0 : ((orgReposResult net cfg org).length == 0) = true <;>
      simp [tryCatchE, h0, Except.bind, pure, Except.pure,
        foldl_append_eq_flatMap _ (discussionRepoContribution net org)
          (fun acc b => discussionLoop_step net org acc b)]

/-- Rewriting `fetchAllItems` to its closed form: it always resolves, with the
pre-sort sequence stably merge-sorted by the recency comparator. -/
theorem fetchAllItems_eq (net : Net) (cfg : ProjectConfig) (org : String)
    (options : FilterOptions) :
    fetchAllItems net cfg org options =
      Except.ok (allItemsResult net cfg org options) := by
  unfold fetchAllItems allItemsResult preSortItems
  by_cases h1 : (options.type.getD TypeFilter.all == TypeFilter.all
      || options.type.getD TypeFilter.all == TypeFilter.issue) = true <;>
  by_cases h2 : (options.type.getD TypeFilter.all == TypeFilter.all
      || options.type.getD TypeFilter.all == TypeFilter.pr) = true <;>
  by_cases h3 : ((options.type.getD TypeFilter.all == TypeFilter.all
      || options.type.getD TypeFilter.all == TypeFilter.discussion)
      && cfg.enableDiscussions) = true <;>
    simp [h1, h2, h3, fetchIssues_eq, fetchPullRequests_eq, fetchDiscussions_eq,
      Bind.bind, Except.bind, pure, Except.pure]

/-- The recency comparator is transitive. -/
theorem itemLE_trans (net : Net) :
    ∀ a b c : GitHubItem, itemLE net a b → itemLE net b c → itemLE net a c := by
  intro a b c hab hbc
  simp only [itemLE, decide_eq_true_eq] at *
  exact le_trans hbc hab

/-- The recency comparator is total. -/
theorem itemLE_total (net : Net) :
    ∀ a b : GitHubItem, itemLE net a b || itemLE net b a := by
  intro a b
  simp only [itemLE, Bool.or_eq_true, decide_eq_true_eq]
  exact Int.le_total _ _

/-- C1: every `fetchAllItems` call resolves with a sequence sorted descending
by `updated_at` parsed as a timestamp, and items with equal parsed timestamps
retain their relative order from the concatenated pre-sort sequence (the sort
is stable). -/
theorem fetchAllItems_sorted_stable (net : Net) (cfg : ProjectConfig)
    (org : String) (options : FilterOptions) :
    ∃ out, fetchAllItems net cfg org options = Except.ok out ∧
      out.Pairwise (fun a b =>
        net.dateTime b.updated_at ≤ net.dateTime a.updated_at) ∧
      ∀ t : Int,
        out.filter (fun x => net.dateTime x.updated_at == t) =
          (preSortItems net cfg org options).filter
            (fun x => net.dateTime x.updated_at == t) := by
  refine ⟨allItemsResult net cfg org options, fetchAllItems_eq net cfg org options, ?_, ?_⟩
  · have hs := @List.sorted_mergeSort GitHubItem (itemLE net)
      (itemLE_trans net) (itemLE_total net) (preSortItems net cfg org options)
    exact hs.imp (fun h => by simpa [itemLE, decide_eq_true_eq] using h)
  · intro t
    have h1 : List.Sublist
        ((preSortItems net cfg org options).filter
          (fun x => net.dateTime x.updated_at == t))
        ((preSortItems net cfg org options).mergeSort (itemLE net)) := by
      apply List.sublist_mergeSort (itemLE_trans net) (itemLE_total net)
        ?_ (List.filter_sublist _)
      apply List.pairwise_of_forall_mem_list
      intro a ha b hb
      have ha' := (List.mem_filter.mp ha).2
      have hb' := (List.mem_filter.mp hb).2
      rw [beq_iff_eq] at ha' hb'
      simp [itemLE, ha', hb']
    have h2 := h1.filter (fun x => net.dateTime x.updated_at == t)
    rw [List.filter_filter] at h2
    simp only [Bool.and_self] at h2
    have hperm : List.Perm
        (((preSortItems net cfg org options).mergeSort (itemLE net)).filter
          (fun x => net.dateTime x.updated_at == t))
        ((preSortItems net cfg org options).filter
          (fun x => net.dateTime x.updated_at == t)) :=
      (List.mergeSort_perm (preSortItems net cfg org options) (itemLE net)).filter _
    exact (h2.eq_of_length hperm.length_eq.symm).symm

/-- Members of a user-filtered list are members of the original list. -/
theorem mem_of_mem_filterByUser {cfg : ProjectConfig}
    {items : List GitHubItem} {x : GitHubItem}
    (hx : x ∈ filterByUser cfg items) : x ∈ items := by
  cases h : cfg.excludedUsers with
  | none => simp only [filterByUser, h] at hx; exact hx
  | some excluded =>
    simp only [filterByUser, h] at hx
    split at hx
    · exact hx
    · exact (List.mem_filter.mp hx).1

/-- Every item produced by the issue path is tagged `issue`. -/
theorem issuesResult_type (net : Net) (cfg : ProjectConfig)
    (org state : String) (repos : List String) :
    ∀ x ∈ issuesResult net cfg org state repos, x.type = ItemType.issue := by
  intro x hx
  unfold issuesResult at hx
  split at hx
  · have hx' := mem_of_mem_filterByUser hx
    obtain ⟨repo, _, hmem⟩ := List.mem_flatMap.mp hx'
    unfold issueRepoContribution at hmem
    split at hmem
    · cases hmem
    · obtain ⟨item, _, rfl⟩ := List.mem_map.mp hmem
      rfl
  · split at hx
    · cases hx
    · cases hx
    · have hx' := mem_of_mem_filterByUser hx
      obtain ⟨item, _, rfl⟩ := List.mem_map.mp hx'
      rfl

/-- Every item produced by the pull-request path is tagged `pr`. -/
theorem pullsResult_type (net : Net) (cfg : ProjectConfig)
    (org state : String) (repos : List String) :
    ∀ x ∈ pullsResult net cfg org state repos, x.type = ItemType.pr := by
  intro x hx
  unfold pullsResult at hx
  split at hx
  · have hx' := mem_of_mem_filterByUser hx
    obtain ⟨repo, _, hmem⟩ := List.mem_flatMap.mp hx'
    unfold pullRepoContribution at hmem
    split at hmem
    · cases hmem
    · obtain ⟨item, _, rfl⟩ := List.mem_map.mp hmem
      rfl
  · split at hx
    · cases hx
    · cases hx
    · have hx' := mem_of_mem_filterByUser hx
      obtain ⟨item, _, rfl⟩ := List.mem_map.mp hx'
      rfl

/-- Members of a user-filtered discussion fan-out are tagged `discussion`. -/
theorem mem_discussionFanOut_type {net : Net} {cfg : ProjectConfig}
    {org : String} {rs : List String} {x : GitHubItem}
    (hx : x ∈ filterByUser cfg (rs.flatMap (discussionRepoContribution net org))) :
    x.type = ItemType.discussion := by
  have hx' := mem_of_mem_filterByUser hx
  obtain ⟨repo, _, hmem⟩ := List.mem_flatMap.mp hx'
  unfold discussionRepoContribution at hmem
  split at hmem
  · cases hmem
  · cases hmem
  · obtain ⟨d, _, rfl⟩ := List.mem_map.mp hmem
    rfl

/-- Every item produced by the discussion path is tagged `discussion`. -/
theorem discussionsResult_type (net : Net) (cfg : ProjectConfig)
    (org : String) (repos : List String) :
    ∀ x ∈ discussionsResult net cfg org repos, x.type = ItemType.discussion := by
  intro x hx
  simp only [discussionsResult] at hx
  by_cases h : repos.length > 0
  · rw [if_pos h] at hx
    split at hx
    · cases hx
    · exact mem_discussionFanOut_type hx
  · rw [if_neg h] at hx
    split at hx
    · cases hx
    · exact mem_discussionFanOut_type hx

/-- Every member of the pre-sort sequence comes from the type-matching fetch
branch, with the branch condition that admitted it. -/
theorem preSortItems_cases (net : Net) (cfg : ProjectConfig) (org : String)
    (options : FilterOptions) :
    ∀ x ∈ preSortItems net cfg org options,
      (x.type = ItemType.issue ∧
        (options.type.getD TypeFilter.all == TypeFilter.all
          || options.type.getD TypeFilter.all == TypeFilter.issue) = true) ∨
      (x.type = ItemType.pr ∧
        (options.type.getD TypeFilter.all == TypeFilter.all
          || options.type.getD TypeFilter.all == TypeFilter.pr) = true) ∨
      (x.type = ItemType.discussion ∧
        ((options.type.getD TypeFilter.all == TypeFilter.all
          || options.type.getD TypeFilter.all == TypeFilter.discussion)
          && cfg.enableDiscussions) = true) := by
  intro x hx
  simp only [preSortItems] at hx
  have hx2 : x ∈
      (if (options.type.getD TypeFilter.all == TypeFilter.all
          || options.type.getD TypeFilter.all == TypeFilter.issue) = true then
        issuesResult net cfg org (options.state.getD "open") cfg.allowedRepositories
      else []) ++
      (if (options.type.getD TypeFilter.all == TypeFilter.all
          || options.type.getD TypeFilter.all == TypeFilter.pr) = true then
        pullsResult net cfg org (options.state.getD "open") cfg.allowedRepositories
      else []) ++
      (if ((options.type.getD TypeFilter.all == TypeFilter.all
          || options.type.getD TypeFilter.all == TypeFilter.discussion)
          && cfg.enableDiscussions) = true then
        discussionsResult net cfg org cfg.allowedRepositories
      else []) := by
    cases hrep : options.repository with
    | none => simp only [hrep] at hx; exact hx
    | some r =>
      simp only [hrep] at hx
      by_cases hr : (r != "" && r != "all") = true
      · rw [if_pos hr] at hx
        exact (List.mem_filter.mp hx).1
      · rw [if_neg hr] at hx
        exact hx
  rcases List.mem_append.mp hx2 with h12 | h3
  · rcases List.mem_append.mp h12 with h1 | h2
    · split at h1
      · exact Or.inl ⟨issuesResult_type net cfg org
          (options.state.getD "open") cfg.allowedRepositories x h1, by assumption⟩
      · cases h1
    · split at h2
      · exact Or.inr (Or.inl ⟨pullsResult_type net cfg org
          (options.state.getD "open") cfg.allowedRepositories x h2, by assumption⟩)
      · cases h2
  · split at h3
    · exact Or.inr (Or.inr ⟨discussionsResult_type net cfg org
        cfg.allowedRepositories x h3, by assumption⟩)
    · cases h3

/-- C2: `fetchAllItems` with type `issue` returns only issue-typed items
(symmetrically for `pr` and `discussion`), and discussion-typed items appear
only when `enableDiscussions` is set, regardless of the requested type. -/
theorem fetchAllItems_type_filter (net : Net) (cfg : ProjectConfig)
    (org : String) (options : FilterOptions) :
    ∃ out, fetchAllItems net cfg org options = Except.ok out ∧
      (options.type = some TypeFilter.issue →
        ∀ x ∈ out, x.type = ItemType.issue) ∧
      (options.type = some TypeFilter.pr →
        ∀ x ∈ out, x.type = ItemType.pr) ∧
      (options.type = some TypeFilter.discussion →
        ∀ x ∈ out, x.type = ItemType.discussion) ∧
      (∀ x ∈ out, x.type = ItemType.discussion →
        cfg.enableDiscussions = true) := by
  refine ⟨allItemsResult net cfg org options,
    fetchAllItems_eq net cfg org options, ?_, ?_, ?_, ?_⟩
  · intro ht x hx
    simp only [allItemsResult, List.mem_mergeSort] at hx
    rcases preSortItems_cases net cfg org options x hx with ⟨h, _⟩ | ⟨_, hc⟩ | ⟨_, hc⟩
    · exact h
    · rw [ht] at hc; simp at hc
    · rw [ht] at hc; simp at hc
  · intro ht x hx
    simp only [allItemsResult, List.mem_mergeSort] at hx
    rcases preSortItems_cases net cfg org options x hx with ⟨_, hc⟩ | ⟨h, _⟩ | ⟨_, hc⟩
    · rw [ht] at hc; simp at hc
    · exact h
    · rw [ht] at hc; simp at hc
  · intro ht x hx
    simp only [allItemsResult, List.mem_mergeSort] at hx
    rcases preSortItems_cases net cfg org options x hx with ⟨_, hc⟩ | ⟨_, hc⟩ | ⟨h, _⟩
    · rw [ht] at hc; simp at hc
    · rw [ht] at hc; simp at hc
    · exact h
  · intro x hx hdisc
    simp only [allItemsResult, List.mem_mergeSort] at hx
    rcases preSortItems_cases net cfg org options x hx with ⟨h, _⟩ | ⟨h, _⟩ | ⟨_, hc⟩
    · rw [h] at hdisc; cases hdisc
    · rw [h] at hdisc; cases hdisc
    · simp only [Bool.and_eq_true] at hc
      exact hc.2

/-- C2 witness: at a concrete environment, requesting type `issue` yields
exactly one item, and it is issue-typed. -/
theorem fetchAllItems_type_filter_witness :
    fetchAllItems netSample cfgPlain "o" { type := some TypeFilter.issue } =
      Except.ok [transformGitHubItem rawIssueA ItemType.issue] ∧
    (transformGitHubItem rawIssueA ItemType.issue).type = ItemType.issue := by
  obtain ⟨out, hok, h1, _, _, _⟩ :=
    fetchAllItems_type_filter netSample cfgPlain "o" { type := some TypeFilter.issue }
  have hval : fetchAllItems netSample cfgPlain "o" { type := some TypeFilter.issue } =
      Except.ok [transformGitHubItem rawIssueA ItemType.issue] := by
    rw [fetchAllItems_eq]
    simp only [allItemsResult]
    have hpre : preSortItems netSample cfgPlain "o" { type := some TypeFilter.issue } =
        [transformGitHubItem rawIssueA ItemType.issue] := rfl
    rw [hpre, List.mergeSort_singleton]
  refine ⟨hval, ?_⟩
  have hout : out = [transformGitHubItem rawIssueA ItemType.issue] :=
    Except.ok.inj (hok.symm.trans hval)
  exact h1 rfl _ (by rw [hout]; exact List.mem_singleton.mpr rfl)

/-- C3: in the per-repository loops of `fetchIssues`, `fetchPullRequests` and
`fetchDiscussions`, a repository whose fetch rejects contributes no items,
while every other repository's contribution is still returned. -/
theorem perRepoFailure_tolerated :
    (∀ (net : Net) (cfg : ProjectConfig) (org state r e : String) (repos : List String),
      repos ≠ [] → r ∈ repos →
      net.repoIssues org r (if state == "all" then "all" else state) =
        Except.error e →
      fetchIssues net cfg org state repos =
        Except.ok (filterByUser cfg
          (repos.flatMap (issueRepoContribution net org state))) ∧
      issueRepoContribution net org state r = []) ∧
    (∀ (net : Net) (cfg : ProjectConfig) (org state r e : String) (repos : List String),
      repos ≠ [] → r ∈ repos →
      net.repoPulls org r (if state == "all" then "all" else state) =
        Except.error e →
      fetchPullRequests net cfg org state repos =
        Except.ok (filterByUser cfg
          (repos.flatMap (pullRepoContribution net org state))) ∧
      pullRepoContribution net org state r = []) ∧
    (∀ (net : Net) (cfg : ProjectConfig) (org r e : String) (repos : List String),
      repos ≠ [] → r ∈ repos →
      net.discussions org r = Except.error e →
      fetchDiscussions net cfg org repos =
        Except.ok (filterByUser cfg
          (repos.flatMap (discussionRepoContribution net org))) ∧
      discussionRepoContribution net org r = []) := by
  refine ⟨?_, ?_, ?_⟩
  · intro net cfg org state r e repos hne _ herr
    constructor
    · rw [fetchIssues_eq]
      unfold issuesResult
      rw [if_pos (List.length_pos.mpr hne)]
    · unfold issueRepoContribution
      rw [herr]
  · intro net cfg org state r e repos hne _ herr
    constructor
    · rw [fetchPullRequests_eq]
      unfold pullsResult
      rw [if_pos (List.length_pos.mpr hne)]
    · unfold pullRepoContribution
      rw [herr]
  · intro net cfg org r e repos hne _ herr
    constructor
    · rw [fetchDiscussions_eq]
      simp only [discussionsResult]
      rw [if_pos (List.length_pos.mpr hne)]
      have h0 : ¬ ((repos.length == 0) = true) := by
        simp only [beq_iff_eq, List.length_eq_zero]
        exact hne
      rw [if_neg h0]
    · unfold discussionRepoContribution
      rw [herr]

/-- C3 witness: with repository `bad` rejecting, each fetcher still resolves
with the flat-mapped per-repository contributions, and `bad` contributes
nothing. -/
theorem perRepoFailure_tolerated_witness :
    fetchIssues netSample cfgPlain "o" "open" ["bad", "good"] =
      Except.ok (filterByUser cfgPlain
        (["bad", "good"].flatMap (issueRepoContribution netSample "o" "open"))) ∧
    issueRepoContribution netSample "o" "open" "bad" = [] ∧
    fetchPullRequests netSample cfgPlain "o" "open" ["bad", "good"] =
      Except.ok (filterByUser cfgPlain
        (["bad", "good"].flatMap (pullRepoContribution netSample "o" "open"))) ∧
    pullRepoContribution netSample "o" "open" "bad" = [] ∧
    fetchDiscussions netSample cfgPlain "o" ["bad", "good"] =
      Except.ok (filterByUser cfgPlain
        (["bad", "good"].flatMap (discussionRepoContribution netSample "o"))) ∧
    discussionRepoContribution netSample "o" "bad" = [] := by
  obtain ⟨hi, hp, hd⟩ := perRepoFailure_tolerated
  obtain ⟨h1, h2⟩ := hi netSample cfgPlain "o" "open" "bad" "boom" ["bad", "good"]
    (by decide) (by decide) rfl
  obtain ⟨h3, h4⟩ := hp netSample cfgPlain "o" "open" "bad" "boom" ["bad", "good"]
    (by decide) (by decide) rfl
  obtain ⟨h5, h6⟩ := hd netSample cfgPlain "o" "bad" "boom" ["bad", "good"]
    (by decide) (by decide) rfl
  exact ⟨h1, h2, h3, h4, h5, h6⟩

/-- C4: no public fetcher ever rejects: each resolves on every input, the
sequence-returning fetchers resolve with `[]` when their underlying request
rejects, and the singular lookups resolve with `null`. -/
theorem fetchers_never_throw :
    (∀ (net : Net) (cfg : ProjectConfig) (org state : String)
        (repos : List String),
      ∃ l, fetchIssues net cfg org state repos = Except.ok l) ∧
    (∀ (net : Net) (cfg : ProjectConfig) (org state : String)
        (repos : List String),
      ∃ l, fetchPullRequests net cfg org state repos = Except.ok l) ∧
    (∀ (net : Net) (cfg : ProjectConfig) (org : String) (repos : List String),
      ∃ l, fetchDiscussions net cfg org repos = Except.ok l) ∧
    (∀ (net : Net) (cfg : ProjectConfig) (org : String),
      ∃ l, getOrgRepositories net cfg org = Except.ok l) ∧
    (∀ (net : Net) (org : String),
      ∃ o, fetchOrganization net org = Except.ok o) ∧
    (∀ (net : Net) (org repo : String),
      ∃ o, fetchReadme net org repo = Except.ok o) ∧
    (∀ (net : Net) (org e : String),
      net.orgInfo org = Except.error e →
      fetchOrganization net org = Except.ok none) ∧
    (∀ (net : Net) (org repo e : String),
      net.readme org repo = Except.error e →
      fetchReadme net org repo = Except.ok none) ∧
    (∀ (net : Net) (cfg : ProjectConfig) (org state e : String),
      net.searchIssues
        ((buildRepoFilter org [] ++ " is:issue " ++
          (if state == "all" then "" else "is:" ++ state)).trim)
        cfg.maxItemsPerPage = Except.error e →
      fetchIssues net cfg org state [] = Except.ok []) ∧
    (∀ (net : Net) (cfg : ProjectConfig) (org state e : String),
      net.searchIssues
        ((buildRepoFilter org [] ++ " is:pr " ++
          (if state == "all" then "" else "is:" ++ state)).trim)
        cfg.maxItemsPerPage = Except.error e →
      fetchPullRequests net cfg org state [] = Except.ok []) ∧
    (∀ (net : Net) (cfg : ProjectConfig) (org e : String),
      net.searchRepositories ("org:" ++ org) = Except.error e →
      getOrgRepositories net cfg org = Except.ok []) := by
  refine ⟨?_, ?_, ?_, ?_, ?_, ?_, ?_, ?_, ?_, ?_, ?_⟩
  · intro net cfg org state repos
    exact ⟨_, fetchIssues_eq net cfg org state repos⟩
  · intro net cfg org state repos
    exact ⟨_, fetchPullRequests_eq net cfg org state repos⟩
  · intro net cfg org repos
    exact ⟨_, fetchDiscussions_eq net cfg org repos⟩
  · intro net cfg org
    exact ⟨_, getOrgRepositories_eq net cfg org⟩
  · intro net org
    unfold fetchOrganization
    cases h : net.orgInfo org with
    | error e => exact ⟨none, rfl⟩
    | ok o => exact ⟨some o, rfl⟩
  · intro net org repo
    unfold fetchReadme
    cases hr : net.readme org repo with
    | error e => exact ⟨none, rfl⟩
    | ok response =>
      by_cases he : (response.encoding == "base64") = true
      · cases ha : net.atob (removeNewlines response.content) with
        | error e =>
          exact ⟨none, by simp [tryCatchE, Except.bind, pure, Except.pure, he, ha]⟩
        | ok s =>
          exact ⟨some s, by simp [tryCatchE, Except.bind, pure, Except.pure, he, ha]⟩
      · exact ⟨some response.content,
          by simp [tryCatchE, Except.bind, pure, Except.pure, he]⟩
  · intro net org e h
    unfold fetchOrganization
    rw [h]
    rfl
  · intro net org repo e h
    unfold fetchReadme
    rw [h]
    rfl
  · intro net cfg org state e h
    rw [fetchIssues_eq]
    unfold issuesResult
    rw [if_neg (by simp), h]
  · intro net cfg org state e h
    rw [fetchPullRequests_eq]
    unfold pullsResult
    rw [if_neg (by simp), h]
  · intro net cfg org e h
    rw [getOrgRepositories_eq]
    unfold orgReposResult
    rw [h]

/-- C4 witness: at concrete failing environments the singular lookups resolve
with `null` and the sequence fetchers resolve with `[]`. -/
theorem fetchers_never_throw_witness :
    fetchOrganization netSample "o" = Except.ok none ∧
    fetchReadme netSample "o" "r" = Except.ok none ∧
    fetchIssues netErr cfgPlain "o" "open" [] = Except.ok [] ∧
    fetchPullRequests netErr cfgPlain "o" "open" [] = Except.ok [] ∧
    getOrgRepositories netErr cfgPlain "o" = Except.ok [] := by
  obtain ⟨_, _, _, _, _, _, h7, h8, h9, h10, h11⟩ := fetchers_never_throw
  exact ⟨h7 netSample "o" "boom" rfl, h8 netSample "o" "r" "boom" rfl,
    h9 netErr cfgPlain "o" "open" "down" rfl,
    h10 netErr cfgPlain "o" "open" "down" rfl,
    h11 netErr cfgPlain "o" "down" rfl⟩

/-- C5: a cached `get` within the 300000 ms TTL of the `put` returns exactly
the stored value; past the TTL it reports absent and deletes the entry. -/
theorem cache_ttl_correct (α : Type) (c : Cache α) (v : α) (k : String)
    (t0 t : Int) :
    (t - t0 ≤ CACHE_TTL →
      getCached (setCache c t0 k v) t k = (some v, setCache c t0 k v)) ∧
    (t - t0 > CACHE_TTL →
      (getCached (setCache c t0 k v) t k).1 = none ∧
      (getCached (setCache c t0 k v) t k).2 k = none) := by
  have hk : setCache c t0 k v k = some { data := v, timestamp := t0 } := by
    unfold setCache
    simp
  constructor
  · intro h
    simp only [getCached, hk]
    rw [if_neg (by omega)]
  · intro h
    simp only [getCached, hk]
    rw [if_pos h]
    exact ⟨rfl, by simp⟩

/-- C5 witness: storing 3 at time 0, a get at time 1 returns it; a get at
time 300001 is a miss and deletes the entry. -/
theorem cache_ttl_correct_witness :
    getCached (setCache (emptyCache Nat) 0 "k" 3) 1 "k" =
      (some 3, setCache (emptyCache Nat) 0 "k" 3) ∧
    (getCached (setCache (emptyCache Nat) 0 "k" 3) 300001 "k").1 = none ∧
    (getCached (setCache (emptyCache Nat) 0 "k" 3) 300001 "k").2 "k" = none := by
  refine ⟨(cache_ttl_correct Nat (emptyCache Nat) 3 "k" 0 1).1 (by decide), ?_, ?_⟩
  · exact ((cache_ttl_correct Nat (emptyCache Nat) 3 "k" 0 300001).2 (by decide)).1
  · exact ((cache_ttl_correct Nat (emptyCache Nat) 3 "k" 0 300001).2 (by decide)).2

/-- The regex test `[.\-]` holds exactly when the name contains a dot or a
hyphen. -/
theorem needsQuotes_iff (name : String) :
    (name.toList.any (fun c => c == '.' || c == '-') = true) ↔
    ('.' ∈ name.toList ∨ '-' ∈ name.toList) := by
  rw [List.any_eq_true]
  constructor
  · rintro ⟨c, hc, hor⟩
    simp only [Bool.or_eq_true, beq_iff_eq] at hor
    rcases hor with rfl | rfl
    · exact Or.inl hc
    · exact Or.inr hc
  · rintro (h | h)
    · exact ⟨'.', h, by simp⟩
    · exact ⟨'-', h, by simp⟩

/-- C6: `buildRepoFilter` yields the org-wide token on an empty list, and
otherwise the space-joined `repo:` tokens in input order (no deduplication),
quoting exactly the names containing a dot or hyphen. -/
theorem buildRepoFilter_spec (org : String) (repos : List String)
    (h : repos ≠ []) :
    buildRepoFilter org [] = "org:" ++ org ∧
    buildRepoFilter org repos = String.intercalate " " (repos.map (fun name =>
      if '.' ∈ name.toList ∨ '-' ∈ name.toList then
        "repo:\"" ++ org ++ "/" ++ name ++ "\""
      else
        "repo:" ++ org ++ "/" ++ name)) := by
  refine ⟨rfl, ?_⟩
  unfold buildRepoFilter
  rw [if_neg (by simp [List.length_eq_zero, h])]
  congr 1
  apply List.map_congr_left
  intro name _
  by_cases hq : '.' ∈ name.toList ∨ '-' ∈ name.toList
  · rw [if_pos ((needsQuotes_iff name).mpr hq), if_pos hq]
  · rw [if_neg (fun hh => hq ((needsQuotes_iff name).mp hh)), if_neg hq]

/-- C6 witness: empty list gives the org token; a dotted name is quoted and a
plain name is not. -/
theorem buildRepoFilter_spec_witness :
    buildRepoFilter "o" [] = "org:" ++ "o" ∧
    buildRepoFilter "o" ["a.b"] = "repo:\"o/a.b\"" ∧
    buildRepoFilter "o" ["ab"] = "repo:o/ab" := by
  obtain ⟨h1, h2⟩ := buildRepoFilter_spec "o" ["a.b"] (by decide)
  obtain ⟨_, h3⟩ := buildRepoFilter_spec "o" ["ab"] (by decide)
  refine ⟨h1, ?_, ?_⟩
  · rw [h2]
    rfl
  · rw [h3]
    rfl

/-- The user filter is exactly a `filter` by the case-insensitive exclusion
predicate. -/
theorem filterByUser_eq_filter (cfg : ProjectConfig)
    (items : List GitHubItem) :
    filterByUser cfg items =
      items.filter (fun item => !(matchesExcludedUser cfg item)) := by
  cases h : cfg.excludedUsers with
  | none =>
    simp only [filterByUser, matchesExcludedUser, h]
    simp
  | some excluded =>
    simp only [filterByUser, matchesExcludedUser, h]
    by_cases h0 : (excluded.length == 0) = true
    · rw [if_pos h0]
      have he : excluded = [] := by
        simpa [List.length_eq_zero] using h0
      subst he
      simp
    · rw [if_neg h0]

/-- Members of a user-filtered list never match the exclusion predicate. -/
theorem mem_filterByUser_not_excluded {cfg : ProjectConfig}
    {l : List GitHubItem} {x : GitHubItem} (hx : x ∈ filterByUser cfg l) :
    matchesExcludedUser cfg x = false := by
  rw [filterByUser_eq_filter] at hx
  have h := (List.mem_filter.mp hx).2
  simpa using h

/-- No item returned by the issue path matches the exclusion predicate. -/
theorem issuesResult_not_excluded (net : Net) (cfg : ProjectConfig)
    (org state : String) (repos : List String) :
    ∀ x ∈ issuesResult net cfg org state repos,
      matchesExcludedUser cfg x = false := by
  intro x hx
  unfold issuesResult at hx
  split at hx
  · exact mem_filterByUser_not_excluded hx
  · split at hx
    · cases hx
    · cases hx
    · exact mem_filterByUser_not_excluded hx

/-- No item returned by the pull-request path matches the exclusion
predicate. -/
theorem pullsResult_not_excluded (net : Net) (cfg : ProjectConfig)
    (org state : String) (repos : List String) :
    ∀ x ∈ pullsResult net cfg org state repos,
      matchesExcludedUser cfg x = false := by
  intro x hx
  unfold pullsResult at hx
  split at hx
  · exact mem_filterByUser_not_excluded hx
  · split at hx
    · cases hx
    · cases hx
    · exact mem_filterByUser_not_excluded hx

/-- No item returned by the discussion path matches the exclusion
predicate. -/
theorem discussionsResult_not_excluded (net : Net) (cfg : ProjectConfig)
    (org : String) (repos : List String) :
    ∀ x ∈ discussionsResult net cfg org repos,
      matchesExcludedUser cfg x = false := by
  intro x hx
  simp only [discussionsResult] at hx
  by_cases h : repos.length > 0
  · rw [if_pos h] at hx
    split at hx
    · cases hx
    · exact mem_filterByUser_not_excluded hx
  · rw [if_neg h] at hx
    split at hx
    · cases hx
    · exact mem_filterByUser_not_excluded hx

/-- C7: `filterByUser` removes exactly the items whose `user.login` matches a
configured excluded username case-insensitively, preserving order, and no
fetcher output ever contains such an item. -/
theorem filterByUser_spec :
    (∀ (cfg : ProjectConfig) (items : List GitHubItem),
      filterByUser cfg items =
        items.filter (fun item => !(matchesExcludedUser cfg item))) ∧
    (∀ (net : Net) (cfg : ProjectConfig) (org state : String)
        (repos : List String) (out : List GitHubItem),
      fetchIssues net cfg org state repos = Except.ok out →
      ∀ x ∈ out, matchesExcludedUser cfg x = false) ∧
    (∀ (net : Net) (cfg : ProjectConfig) (org state : String)
        (repos : List String) (out : List GitHubItem),
      fetchPullRequests net cfg org state repos = Except.ok out →
      ∀ x ∈ out, matchesExcludedUser cfg x = false) ∧
    (∀ (net : Net) (cfg : ProjectConfig) (org : String)
        (repos : List String) (out : List GitHubItem),
      fetchDiscussions net cfg org repos = Except.ok out →
      ∀ x ∈ out, matchesExcludedUser cfg x = false) := by
  refine ⟨filterByUser_eq_filter, ?_, ?_, ?_⟩
  · intro net cfg org state repos out hout x hx
    rw [fetchIssues_eq] at hout
    cases Except.ok.inj hout
    exact issuesResult_not_excluded net cfg org state repos x hx
  · intro net cfg org state repos out hout x hx
    rw [fetchPullRequests_eq] at hout
    cases Except.ok.inj hout
    exact pullsResult_not_excluded net cfg org state repos x hx
  · intro net cfg org repos out hout x hx
    rw [fetchDiscussions_eq] at hout
    cases Except.ok.inj hout
    exact discussionsResult_not_excluded net cfg org repos x hx

/-- C7 witness: excluding `bot` drops the item signed `Bot` and keeps the
rest, and a concrete fetch output contains no excluded author. -/
theorem filterByUser_spec_witness :
    filterByUser cfgExcl [itemBot, itemAlice] = [itemAlice] ∧
    matchesExcludedUser cfgExcl
      { transformGitHubItem rawIssueA ItemType.issue with repository := "good" } =
      false := by
  obtain ⟨h1, h2, _, _⟩ := filterByUser_spec
  constructor
  · rw [h1]
    rfl
  · exact h2 netSample cfgExcl "o" "open" ["good"] _
      (fetchIssues_eq netSample cfgExcl "o" "open" ["good"]) _ (by decide)

/-- On a cache miss (or falsy hit) and a non-2xx response, `githubFetch`
throws the API error interpolating the status text. -/
theorem githubFetch_err (parseJson : String → JsValue) (resp : HttpResponse)
    (now : Int) (cache : Cache JsValue) (endpoint : String)
    (hmiss : jsOptTruthy (getCached cache now ("rest:" ++ endpoint)).1 = false)
    (hnok : resp.ok = false) :
    (githubFetch parseJson resp now cache endpoint).1 =
      Except.error ("GitHub API request failed: " ++ resp.statusText) := by
  simp only [githubFetch]
  cases hc : (getCached cache now ("rest:" ++ endpoint)).1 with
  | none => simp [hnok]
  | some v =>
    rw [hc] at hmiss
    simp only [jsOptTruthy] at hmiss
    simp [hmiss, hnok]

/-- On a cache miss (or falsy hit) and a non-2xx response, `githubGraphQL`
throws the GraphQL transport error interpolating the status text. -/
theorem githubGraphQL_err (parseJson : String → JsValue)
    (stringify : JsValue → String) (resp : HttpResponse) (now : Int)
    (cache : Cache JsValue) (query : String) (variablesJson : Option String)
    (hmiss : jsOptTruthy (getCached cache now
      ("graphql:" ++ query ++ ":" ++ variablesJson.getD "\x7b\x7d")).1 = false)
    (hnok : resp.ok = false) :
    (githubGraphQL parseJson stringify resp now cache query variablesJson).1 =
      Except.error ("GitHub GraphQL request failed: " ++ resp.statusText) := by
  simp only [githubGraphQL]
  cases hc : (getCached cache now
      ("graphql:" ++ query ++ ":" ++ variablesJson.getD "\x7b\x7d")).1 with
  | none => simp [hnok]
  | some v =>
    rw [hc] at hmiss
    simp only [jsOptTruthy] at hmiss
    simp [hmiss, hnok]

/-- C8 counterexample: two non-2xx responses differing only in status code
produce the very same error value, so the raised error does not carry the
status code (only the log line does). -/
theorem transport_error_drops_status_code :
    (404 : Nat) ≠ 500 ∧
    (githubFetch parseConst { status := 404, statusText := "Oops", body := "" }
        0 (emptyCache JsValue) "/x").1 =
      (githubFetch parseConst { status := 500, statusText := "Oops", body := "" }
        0 (emptyCache JsValue) "/x").1 ∧
    (githubFetch parseConst { status := 404, statusText := "Oops", body := "" }
        0 (emptyCache JsValue) "/x").1 =
      Except.error "GitHub API request failed: Oops" := by
  refine ⟨by decide, rfl, rfl⟩

/-- C8 amended: on a non-2xx response the transports fail with an error that
carries the status text (message `... request failed: <statusText>`); the
status code is only logged, not carried on the error, and the response body
is not parsed in the error path (the error is independent of the body and of
the JSON parser). -/
theorem transport_error_status_text :
    (∀ (parseJson : String → JsValue) (resp : HttpResponse) (now : Int)
        (cache : Cache JsValue) (endpoint : String),
      jsOptTruthy (getCached cache now ("rest:" ++ endpoint)).1 = false →
      resp.ok = false →
      (githubFetch parseJson resp now cache endpoint).1 =
        Except.error ("GitHub API request failed: " ++ resp.statusText) ∧
      ∀ (parseJson2 : String → JsValue) (body2 : String),
        (githubFetch parseJson2 { resp with body := body2 } now cache endpoint).1 =
          Except.error ("GitHub API request failed: " ++ resp.statusText)) ∧
    (∀ (parseJson : String → JsValue) (stringify : JsValue → String)
        (resp : HttpResponse) (now : Int) (cache : Cache JsValue)
        (query : String) (variablesJson : Option String),
      jsOptTruthy (getCached cache now
        ("graphql:" ++ query ++ ":" ++ variablesJson.getD "\x7b\x7d")).1 = false →
      resp.ok = false →
      (githubGraphQL parseJson stringify resp now cache query variablesJson).1 =
        Except.error ("GitHub GraphQL request failed: " ++ resp.statusText) ∧
      ∀ (parseJson2 : String → JsValue) (stringify2 : JsValue → String)
          (body2 : String),
        (githubGraphQL parseJson2 stringify2 { resp with body := body2 }
          now cache query variablesJson).1 =
          Except.error ("GitHub GraphQL request failed: " ++ resp.statusText)) := by
  constructor
  · intro parseJson resp now cache endpoint hmiss hnok
    refine ⟨githubFetch_err parseJson resp now cache endpoint hmiss hnok, ?_⟩
    intro parseJson2 body2
    exact githubFetch_err parseJson2 { resp with body := body2 } now cache
      endpoint hmiss (by simpa [HttpResponse.ok] using hnok)
  · intro parseJson stringify resp now cache query variablesJson hmiss hnok
    refine ⟨githubGraphQL_err parseJson stringify resp now cache query
      variablesJson hmiss hnok, ?_⟩
    intro parseJson2 stringify2 body2
    exact githubGraphQL_err parseJson2 stringify2 { resp with body := body2 }
      now cache query variablesJson hmiss (by simpa [HttpResponse.ok] using hnok)

/-- C8 witness: a concrete 500 response yields the status-text error on both
transports. -/
theorem transport_error_status_text_witness :
    (githubFetch parseConst
        { status := 500, statusText := "Server Error", body := "x" } 0
        (emptyCache JsValue) "/y").1 =
      Except.error ("GitHub API request failed: " ++ "Server Error") ∧
    (githubGraphQL parseConst stringifyConst
        { status := 500, statusText := "Server Error", body := "x" } 0
        (emptyCache JsValue) "q" none).1 =
      Except.error ("GitHub GraphQL request failed: " ++ "Server Error") := by
  obtain ⟨h1, h2⟩ := transport_error_status_text
  exact ⟨(h1 parseConst { status := 500, statusText := "Server Error", body := "x" }
      0 (emptyCache JsValue) "/y" rfl rfl).1,
    (h2 parseConst stringifyConst
      { status := 500, statusText := "Server Error", body := "x" }
      0 (emptyCache JsValue) "q" none rfl rfl).1⟩

/-- C9 counterexample: one fetch batch maps the two distinct node identifiers
`abc7` and `xyz7` to the same synthesized id 7, so the synthesized ids are
not pairwise unique within the batch. -/
theorem discussion_ids_not_unique :
    discNodeA.id ≠ discNodeB.id ∧
    fetchDiscussions netSample cfgPlain "o" ["good"] =
      Except.ok [discussionToItem "good" discNodeA,
        discussionToItem "good" discNodeB] ∧
    (discussionToItem "good" discNodeA).id = 7 ∧
    (discussionToItem "good" discNodeB).id = 7 := by
  exact ⟨by decide, rfl, rfl, rfl⟩

/-- Members of a user-filtered discussion fan-out are images of fetched
GraphQL nodes, with ids synthesized by digit extraction. -/
theorem mem_discussionFanOut_origin {net : Net} {cfg : ProjectConfig}
    {org : String} {rs : List String} {x : GitHubItem}
    (hx : x ∈ filterByUser cfg (rs.flatMap (discussionRepoContribution net org))) :
    ∃ repo nodes disc, repo ∈ rs ∧
      net.discussions org repo = Except.ok (some nodes) ∧ disc ∈ nodes ∧
      x = discussionToItem repo disc ∧
      x.id = parseIntOrZero (extractDigits disc.id) := by
  have hx2 := mem_of_mem_filterByUser hx
  obtain ⟨repo, hrepo, hmem⟩ := List.mem_flatMap.mp hx2
  unfold discussionRepoContribution at hmem
  cases hd : net.discussions org repo with
  | error e =>
    simp only [hd] at hmem
    cases hmem
  | ok r =>
    cases r with
    | none =>
      simp only [hd] at hmem
      cases hmem
    | some nodes =>
      simp only [hd] at hmem
      obtain ⟨d, hdm, rfl⟩ := List.mem_map.mp hmem
      exact ⟨repo, nodes, d, hrepo, hd, hdm, rfl, rfl⟩

/-- C9 amended: every item of any `fetchDiscussions` batch - whether over an
explicit allow-list or over the repositories resolved by `getOrgRepositories`
when the allow-list is empty - is the image of a fetched GraphQL node with
its integer id synthesized by stripping non-digits from the node identifier
(0 when no digits remain); the synthesis is a deterministic function of the
node identifier (stable), but the ids need not be pairwise unique in the
batch. -/
theorem discussion_ids_digit_extraction (net : Net) (cfg : ProjectConfig)
    (org : String) (repos : List String) :
    ∃ out, fetchDiscussions net cfg org repos = Except.ok out ∧
      ∀ x ∈ out, ∃ repo nodes disc,
        repo ∈ (if repos.length > 0 then repos else orgReposResult net cfg org) ∧
        net.discussions org repo = Except.ok (some nodes) ∧ disc ∈ nodes ∧
        x = discussionToItem repo disc ∧
        x.id = parseIntOrZero (extractDigits disc.id) := by
  refine ⟨discussionsResult net cfg org repos,
    fetchDiscussions_eq net cfg org repos, ?_⟩
  intro x hx
  simp only [discussionsResult] at hx
  by_cases hl : repos.length > 0
  · rw [if_pos hl] at hx
    rw [if_pos hl]
    split at hx
    · cases hx
    · exact mem_discussionFanOut_origin hx
  · rw [if_neg hl] at hx
    rw [if_neg hl]
    split at hx
    · cases hx
    · exact mem_discussionFanOut_origin hx

/-- C9 witness: the concrete batch over `good` resolves, and the first
item's id is the digit extraction of its node identifier. -/
theorem discussion_ids_digit_extraction_witness :
    fetchDiscussions netSample cfgPlain "o" ["good"] =
      Except.ok [discussionToItem "good" discNodeA,
        discussionToItem "good" discNodeB] ∧
    (discussionToItem "good" discNodeA).id =
      parseIntOrZero (extractDigits discNodeA.id) := by
  obtain ⟨out, hok, hall⟩ :=
    discussion_ids_digit_extraction netSample cfgPlain "o" ["good"]
  have hval : fetchDiscussions netSample cfgPlain "o" ["good"] =
      Except.ok [discussionToItem "good" discNodeA,
        discussionToItem "good" discNodeB] := rfl
  have hout : out = [discussionToItem "good" discNodeA,
      discussionToItem "good" discNodeB] :=
    Except.ok.inj (hok.symm.trans hval)
  obtain ⟨repo, nodes, d, hrep, hnet, hdm, hxeq, hid⟩ :=
    hall (discussionToItem "good" discNodeA)
      (by rw [hout]; exact List.mem_cons_self _ _)
  refine ⟨hval, ?_⟩
  have hrep2 : repo ∈ ["good"] := by
    rw [if_pos (by decide : (["good"] : List String).length > 0)] at hrep
    exact hrep
  have hrepo : repo = "good" := by simpa using hrep2
  subst hrepo
  have hn : nodes = [discNodeA, discNodeB] :=
    Option.some.inj (Except.ok.inj (hnet.symm.trans rfl))
  subst hn
  rcases List.mem_cons.mp hdm with rfl | hdm2
  · exact hid
  · rcases List.mem_cons.mp hdm2 with rfl | h3
    · exact absurd hxeq (by decide)
    · cases h3

/-- A within-TTL lookup returns the stored entry and leaves the cache
untouched. -/
theorem getCached_hit {α : Type} (cache : Cache α) (now t0 : Int)
    (key : String) (v : α)
    (hc : cache key = some { data := v, timestamp := t0 })
    (ht : now - t0 ≤ CACHE_TTL) :
    getCached cache now key = (some v, cache) := by
  simp only [getCached, hc]
  rw [if_neg (by omega)]

/-- C10: a within-TTL cached value that is falsy (JSON null, 0, false, "")
does not short-circuit the transports: the network response is used and its
parsed result overwrites the entry; only a truthy cached value is returned
without touching the network or the cache. -/
theorem falsy_cache_not_short_circuit :
    (∀ (parseJson : String → JsValue) (resp : HttpResponse) (now t0 : Int)
        (cache : Cache JsValue) (endpoint : String) (v : JsValue),
      cache ("rest:" ++ endpoint) = some { data := v, timestamp := t0 } →
      now - t0 ≤ CACHE_TTL →
      v.truthy = false →
      resp.ok = true →
      githubFetch parseJson resp now cache endpoint =
        (Except.ok (parseJson resp.body),
          setCache cache now ("rest:" ++ endpoint) (parseJson resp.body))) ∧
    (∀ (parseJson : String → JsValue) (resp : HttpResponse) (now t0 : Int)
        (cache : Cache JsValue) (endpoint : String) (v : JsValue),
      cache ("rest:" ++ endpoint) = some { data := v, timestamp := t0 } →
      now - t0 ≤ CACHE_TTL →
      v.truthy = true →
      githubFetch parseJson resp now cache endpoint = (Except.ok v, cache)) ∧
    (∀ (parseJson : String → JsValue) (stringify : JsValue → String)
        (resp : HttpResponse) (now t0 : Int) (cache : Cache JsValue)
        (query : String) (variablesJson : Option String) (v : JsValue),
      cache ("graphql:" ++ query ++ ":" ++ variablesJson.getD "\x7b\x7d") =
        some { data := v, timestamp := t0 } →
      now - t0 ≤ CACHE_TTL →
      v.truthy = false →
      resp.ok = true →
      ((parseJson resp.body).getProp "errors").truthy = false →
      githubGraphQL parseJson stringify resp now cache query variablesJson =
        (Except.ok ((parseJson resp.body).getProp "data"),
          setCache cache now
            ("graphql:" ++ query ++ ":" ++ variablesJson.getD "\x7b\x7d")
            ((parseJson resp.body).getProp "data"))) ∧
    (∀ (parseJson : String → JsValue) (stringify : JsValue → String)
        (resp : HttpResponse) (now t0 : Int) (cache : Cache JsValue)
        (query : String) (variablesJson : Option String) (v : JsValue),
      cache ("graphql:" ++ query ++ ":" ++ variablesJson.getD "\x7b\x7d") =
        some { data := v, timestamp := t0 } →
      now - t0 ≤ CACHE_TTL →
      v.truthy = true →
      githubGraphQL parseJson stringify resp now cache query variablesJson =
        (Except.ok v, cache)) := by
  refine ⟨?_, ?_, ?_, ?_⟩
  · intro parseJson resp now t0 cache endpoint v hc ht hfalsy hok
    have hget := getCached_hit cache now t0 ("rest:" ++ endpoint) v hc ht
    simp [githubFetch, hget, hfalsy, hok]
  · intro parseJson resp now t0 cache endpoint v hc ht htruthy
    have hget := getCached_hit cache now t0 ("rest:" ++ endpoint) v hc ht
    simp [githubFetch, hget, htruthy]
  · intro parseJson stringify resp now t0 cache query variablesJson v hc ht
      hfalsy hok herr
    have hget := getCached_hit cache now t0
      ("graphql:" ++ query ++ ":" ++ variablesJson.getD "\x7b\x7d") v hc ht
    simp [githubGraphQL, hget, hfalsy, hok, herr]
  · intro parseJson stringify resp now t0 cache query variablesJson v hc ht
      htruthy
    have hget := getCached_hit cache now t0
      ("graphql:" ++ query ++ ":" ++ variablesJson.getD "\x7b\x7d") v hc ht
    simp [githubGraphQL, hget, htruthy]

/-- C10 witness: a cached JSON null within TTL is refetched and overwritten
on both transports, while a cached number 5 short-circuits. -/
theorem falsy_cache_not_short_circuit_witness :
    githubFetch parseConst { status := 200, statusText := "OK", body := "b" } 1
      (setCache (emptyCache JsValue) 0 ("rest:" ++ "/z") JsValue.nul) "/z" =
      (Except.ok (parseConst "b"),
        setCache (setCache (emptyCache JsValue) 0 ("rest:" ++ "/z") JsValue.nul)
          1 ("rest:" ++ "/z") (parseConst "b")) ∧
    githubFetch parseConst { status := 200, statusText := "OK", body := "b" } 1
      (setCache (emptyCache JsValue) 0 ("rest:" ++ "/z") (JsValue.num 5)) "/z" =
      (Except.ok (JsValue.num 5),
        setCache (emptyCache JsValue) 0 ("rest:" ++ "/z") (JsValue.num 5)) ∧
    githubGraphQL parseConst stringifyConst
      { status := 200, statusText := "OK", body := "b" } 1
      (setCache (emptyCache JsValue) 0
        ("graphql:" ++ "q" ++ ":" ++ (none : Option String).getD "\x7b\x7d")
        JsValue.nul) "q" none =
      (Except.ok ((parseConst "b").getProp "data"),
        setCache (setCache (emptyCache JsValue) 0
          ("graphql:" ++ "q" ++ ":" ++ (none : Option String).getD "\x7b\x7d")
          JsValue.nul) 1
          ("graphql:" ++ "q" ++ ":" ++ (none : Option String).getD "\x7b\x7d")
          ((parseConst "b").getProp "data")) ∧
    githubGraphQL parseConst stringifyConst
      { status := 200, statusText := "OK", body := "b" } 1
      (setCache (emptyCache JsValue) 0
        ("graphql:" ++ "q" ++ ":" ++ (none : Option String).getD "\x7b\x7d")
        (JsValue.num 5)) "q" none =
      (Except.ok (JsValue.num 5),
        setCache (emptyCache JsValue) 0
          ("graphql:" ++ "q" ++ ":" ++ (none : Option String).getD "\x7b\x7d")
          (JsValue.num 5)) := by
  obtain ⟨h1, h2, h3, h4⟩ := falsy_cache_not_short_circuit
  refine ⟨?_, ?_, ?_, ?_⟩
  · exact h1 parseConst { status := 200, statusText := "OK", body := "b" } 1 0 _
      "/z" JsValue.nul (by simp [setCache]) (by decide) rfl rfl
  · exact h2 parseConst { status := 200, statusText := "OK", body := "b" } 1 0 _
      "/z" (JsValue.num 5) (by simp [setCache]) (by decide) rfl
  · exact h3 parseConst stringifyConst
      { status := 200, statusText := "OK", body := "b" } 1 0 _ "q" none
      JsValue.nul (by simp [setCache]) (by decide) rfl rfl rfl
  · exact h4 parseConst stringifyConst
      { status := 200, statusText := "OK", body := "b" } 1 0 _ "q" none
      (JsValue.num 5) (by simp [setCache]) (by decide) rfl
